import Mathlib

/-
  Verification of the Jam Buddy note-capture / AI-response pipeline.

  Shallow embedding of src/jam-buddy/script.js: the mutable globals
  (aiEnabled, isAIPlaying, userNotes, activeNotes, inactivityTimer) become
  fields of AppState; the pending setTimeout callbacks created by the
  success path of triggerAIResponse become the playbackPending and
  completionPending fields; audio-engine and model calls become an Effect
  list returned alongside the updated state.  JS numbers are modelled by
  Int (MIDI pitches, millisecond offsets) and Rat (seconds, temperature) -
  every arithmetic operation performed by the source on these values is
  exact in binary floating point, so Rat is a faithful carrier.
-/

namespace JamBuddy

/-- The playable MIDI pitches of the on-screen piano (script.js line 128). -/
def MIDI_NUMS : List ℤ :=
  [60, 61, 62, 63, 64, 65, 66, 67, 68, 69, 70, 71, 72, 73, 74, 75, 76, 77]

/-- Milliseconds of silence before the AI fires (script.js line 46). -/
def INACTIVITY_THRESHOLD : ℕ := 2000

/-- Milliseconds per quantized step (script.js line 354). -/
def msPerStep : ℤ := 125

/-- A note recorded from the human player (pushed in playNote,
script.js lines 228-232). -/
structure NoteEvent where
  pitch : ℤ
  startTime : ℚ
  endTime : ℚ
deriving DecidableEq, Inhabited

/-- One entry of the sequence sent to the model (script.js lines 336-341). -/
structure SeqNote where
  pitch : ℤ
  startTime : ℚ
  endTime : ℚ
  velocity : ℤ
deriving DecidableEq, Inhabited

/-- The unquantized NoteSequence built in triggerAIResponse
(script.js lines 335-343). -/
structure NoteSequence where
  notes : List SeqNote
  totalTime : ℚ
deriving DecidableEq, Inhabited

/-- The full argument triple of the model.continueSequence call
(script.js line 350): the sequence, the response length in steps, and
the temperature. -/
structure ModelRequest where
  sequence : NoteSequence
  steps : ℕ
  temperature : ℚ
deriving DecidableEq, Inhabited

/-- A note of the GeneratedSequence returned by the model
(read in script.js lines 357-361).  The pitch is kept as a rational so
that tie scenarios of the snapping rule can be stated. -/
structure GenNote where
  pitch : ℚ
  quantizedStartStep : ℤ
  quantizedEndStep : ℤ
deriving DecidableEq, Inhabited

/-- A pending playback setTimeout created in script.js lines 366-372:
its delay, the playable pitch it resolves to, and the synthesis
duration in seconds. -/
structure ScheduledEvent where
  offsetMs : ℤ
  pitch : ℤ
  durationSec : ℚ
deriving DecidableEq, Inhabited

/-- Observable calls into the audio engine, the input layer and the
model issued by a handler. -/
inductive Effect where
  | attack (pitch : ℤ)
  | release (pitch : ℤ)
  | attackRelease8n (pitch : ℤ)
  | attackRelease (pitch : ℤ) (durationSec : ℚ)
  | disableInput
  | enableInput
  | modelCall (req : ModelRequest)
deriving DecidableEq

/-- The mutable globals of script.js (lines 38-54) together with the
pending timeouts created by the AI-response success path. -/
structure AppState where
  aiEnabled : Bool
  isAIPlaying : Bool
  userNotes : List NoteEvent
  activeNotes : List ℤ
  inactivityTimer : Option ℕ
  playbackPending : List ScheduledEvent
  completionPending : Option ℤ
deriving DecidableEq

/-- The indexed map of script.js lines 336-341: note i of the buffer is
placed in the half-second slot i, startTime i*0.5, endTime (i+1)*0.5,
velocity 80, pitch copied verbatim. -/
def discretizeFrom (i : ℕ) : List NoteEvent → List SeqNote
  | [] => []
  | n :: ns =>
      ⟨n.pitch, (i : ℚ) * (1 / 2), ((i : ℚ) + 1) * (1 / 2), 80⟩ ::
        discretizeFrom (i + 1) ns

/-- The unquantizedSequence object of script.js lines 335-343. -/
def buildUnquantizedSequence (userNotes : List NoteEvent) : NoteSequence :=
  { notes := discretizeFrom 0 userNotes
  , totalTime := (userNotes.length : ℚ) * (1 / 2) }

/-- The model.continueSequence call of script.js line 350: the built
sequence with response length 50 steps and temperature 1.1. -/
def aiModelRequest (userNotes : List NoteEvent) : ModelRequest :=
  { sequence := buildUnquantizedSequence userNotes
  , steps := 50
  , temperature := 11 / 10 }

/-- Math.abs on rationals, written so that it evaluates by kernel
reduction. -/
def mathAbs (x : ℚ) : ℚ :=
  if x < 0 then -x else x

/-- One step of the reduce of script.js lines 367-369: keep curr only
when it is strictly closer to the generated pitch than prev. -/
def closerStep (pitch : ℚ) (prev curr : ℤ) : ℤ :=
  if mathAbs ((curr : ℚ) - pitch) < mathAbs ((prev : ℚ) - pitch) then curr else prev

/-- Array.prototype.reduce with no seed: the first element seeds the
fold over the rest; empty array has no result. -/
def reduceClosest (pitch : ℚ) : List ℤ → Option ℤ
  | [] => none
  | c :: cs => some (cs.foldl (closerStep pitch) c)

/-- The closestMidi computation of script.js lines 367-369. -/
def closestMidi (pitch : ℚ) : ℤ :=
  (reduceClosest pitch MIDI_NUMS).getD 0

/-- The per-note scheduling computation of script.js lines 357-372:
offset quantizedStartStep*125 ms, duration (end-start)*125/1000 s,
target pitch snapped to the playable set. -/
def scheduleNote (n : GenNote) : ScheduledEvent :=
  let startTimeMs := n.quantizedStartStep * msPerStep
  let endTimeMs := n.quantizedEndStep * msPerStep
  let durationMs := endTimeMs - startTimeMs
  { offsetMs := startTimeMs
  , pitch := closestMidi n.pitch
  , durationSec := (durationMs : ℚ) / 1000 }

/-- One step of the totalDuration accumulation (script.js lines
375-377): take endTimeMs only when it strictly exceeds the running
total. -/
def maxStep (acc : ℤ) (n : GenNote) : ℤ :=
  if n.quantizedEndStep * msPerStep > acc then n.quantizedEndStep * msPerStep
  else acc

/-- The totalDuration accumulation of script.js lines 355, 375-377:
starts at 0 and takes each endTimeMs that strictly exceeds it. -/
def maxEndOffsetMs (notes : List GenNote) : ℤ :=
  notes.foldl maxStep 0

/-- Delay of the reset timeout of script.js line 386. -/
def completionDelayMs (notes : List GenNote) : ℤ :=
  maxEndOffsetMs notes + 500

/-- playNote (script.js lines 192-234).  The now argument is the
Tone.now() reading at call time. -/
def playNote (s : AppState) (index : ℕ) (isAI : Bool) (now : ℚ) :
    AppState × List Effect :=
  if ¬isAI ∧ s.isAIPlaying then (s, [])
  else
    let midi := MIDI_NUMS.getD index 0
    if isAI then
      (s, [Effect.attackRelease8n midi])
    else
      let attacked :=
        if midi ∈ s.activeNotes then (s.activeNotes, ([] : List Effect))
        else (s.activeNotes ++ [midi], [Effect.attack midi])
      ({ s with
          activeNotes := attacked.1
        , inactivityTimer := none
        , userNotes := s.userNotes ++ [⟨midi, now, now + 1 / 2⟩] },
       attacked.2)

/-- playNoteWithDuration (script.js lines 237-265): pure synthesis with
an exact duration, no state change. -/
def playNoteWithDuration (index : ℕ) (durationSec : ℚ) : List Effect :=
  [Effect.attackRelease (MIDI_NUMS.getD index 0) durationSec]

/-- The active set remaining after releaseNote deletes the released
midi when present (script.js lines 276-279). -/
def notesAfterRelease (s : AppState) (midi : ℤ) : List ℤ :=
  if midi ∈ s.activeNotes then s.activeNotes.erase midi else s.activeNotes

/-- releaseNote (script.js lines 268-292). -/
def releaseNote (s : AppState) (index : ℕ) : AppState × List Effect :=
  if s.isAIPlaying then (s, [])
  else
    let midi := MIDI_NUMS.getD index 0
    let effs : List Effect :=
      if midi ∈ s.activeNotes then [Effect.release midi] else []
    if notesAfterRelease s midi = [] ∧ s.aiEnabled then
      ({ s with
          activeNotes := notesAfterRelease s midi
        , inactivityTimer := some INACTIVITY_THRESHOLD }, effs)
    else
      ({ s with activeNotes := notesAfterRelease s midi }, effs)

/-- The aiToggle change listener (script.js lines 95-116). -/
def aiToggleChange (s : AppState) (checked : Bool) : AppState :=
  let s0 := { s with aiEnabled := checked }
  if ¬checked then { s0 with inactivityTimer := none }
  else
    let s1 := { s0 with userNotes := [] }
    if s1.activeNotes = [] ∧ 0 < s1.userNotes.length then
      { s1 with inactivityTimer := some INACTIVITY_THRESHOLD }
    else s1

/-- The synchronous prelude of triggerAIResponse (script.js lines
328-350): the reentrancy and toggle and empty-buffer guard, then
isAIPlaying set, disableKeyboard (which force-releases every active
pitch and clears the set), and the model call. -/
def triggerFire (s : AppState) : AppState × List Effect :=
  if ¬s.aiEnabled ∨ s.userNotes = [] ∨ s.isAIPlaying then (s, [])
  else
    ({ s with isAIPlaying := true, activeNotes := [] },
     Effect.disableInput ::
       (s.activeNotes.map Effect.release ++
         [Effect.modelCall (aiModelRequest s.userNotes)]))

/-- The success continuation of triggerAIResponse (script.js lines
352-386): schedule one playback timeout per generated note and one
reset timeout at totalDuration + 500. -/
def modelReturn (s : AppState) (result : List GenNote) : AppState :=
  { s with
      playbackPending := result.map scheduleNote
    , completionPending := some (completionDelayMs result) }

/-- The catch handler of triggerAIResponse (script.js lines 388-394). -/
def modelError (s : AppState) : AppState × List Effect :=
  ({ s with isAIPlaying := false, userNotes := [] }, [Effect.enableInput])

/-- The reset timeout body of script.js lines 381-386. -/
def completionFire (s : AppState) : AppState × List Effect :=
  ({ s with userNotes := [], isAIPlaying := false, completionPending := none },
   [Effect.enableInput])

/-- Extracts the request of a model-call effect. -/
def toModelCall : Effect → Option ModelRequest
  | Effect.modelCall r => some r
  | _ => none

/-- The model submissions contained in an effect list. -/
def modelCallsOf (effs : List Effect) : List ModelRequest :=
  effs.filterMap toModelCall

/- ------------------------------------------------------------------
   Helper lemmas
   ------------------------------------------------------------------ -/

lemma discretizeFrom_length (un : List NoteEvent) :
    ∀ i, (discretizeFrom i un).length = un.length := by
  induction un with
  | nil => intro i; rfl
  | cons n ns ih => intro i; simp [discretizeFrom, ih]

lemma discretizeFrom_getD (un : List NoteEvent) :
    ∀ i j, j < un.length →
      (discretizeFrom i un).getD j default =
        ⟨(un.getD j default).pitch, ((i + j : ℕ) : ℚ) * (1 / 2),
          (((i + j : ℕ) : ℚ) + 1) * (1 / 2), 80⟩ := by
  induction un with
  | nil => intro i j h; simp at h
  | cons n ns ih =>
    intro i j h
    cases j with
    | zero => simp [discretizeFrom]
    | succ k =>
      have hk : k < ns.length := by simpa using h
      simp only [discretizeFrom, List.getD_cons_succ]
      rw [show i + (k + 1) = i + 1 + k from by omega]
      exact ih (i + 1) k hk

lemma foldl_closer_mem (p : ℚ) :
    ∀ (l : List ℤ) (init : ℤ), l.foldl (closerStep p) init ∈ init :: l := by
  intro l
  induction l with
  | nil => intro init; simp
  | cons c cs ih =>
    intro init
    rw [List.foldl_cons]
    by_cases hc : mathAbs ((c : ℚ) - p) < mathAbs ((init : ℚ) - p)
    · have hstep : closerStep p init c = c := by rw [closerStep, if_pos hc]
      rw [hstep]
      have h := ih c
      simp only [List.mem_cons] at h ⊢
      tauto
    · have hstep : closerStep p init c = init := by rw [closerStep, if_neg hc]
      rw [hstep]
      have h := ih init
      simp only [List.mem_cons] at h ⊢
      tauto

lemma foldl_closer_le (p : ℚ) :
    ∀ (l : List ℤ) (init : ℤ),
      mathAbs (((l.foldl (closerStep p) init : ℤ) : ℚ) - p) ≤ mathAbs ((init : ℚ) - p) ∧
        ∀ q ∈ l, mathAbs (((l.foldl (closerStep p) init : ℤ) : ℚ) - p) ≤ mathAbs ((q : ℚ) - p) := by
  intro l
  induction l with
  | nil => intro init; exact ⟨le_refl _, by simp⟩
  | cons c cs ih =>
    intro init
    rw [List.foldl_cons]
    by_cases hc : mathAbs ((c : ℚ) - p) < mathAbs ((init : ℚ) - p)
    · have hstep : closerStep p init c = c := by rw [closerStep, if_pos hc]
      rw [hstep]
      have h := ih c
      refine ⟨h.1.trans hc.le, ?_⟩
      intro q hq
      rcases List.mem_cons.mp hq with rfl | hq2
      · exact h.1
      · exact h.2 q hq2
    · have hstep : closerStep p init c = init := by rw [closerStep, if_neg hc]
      rw [hstep]
      have h := ih init
      refine ⟨h.1, ?_⟩
      intro q hq
      rcases List.mem_cons.mp hq with rfl | hq2
      · exact h.1.trans (not_lt.mp hc)
      · exact h.2 q hq2

lemma foldl_closer_strict (p : ℚ) :
    ∀ (l : List ℤ) (init : ℤ),
      l.foldl (closerStep p) init = init ∨
        mathAbs (((l.foldl (closerStep p) init : ℤ) : ℚ) - p) < mathAbs ((init : ℚ) - p) := by
  intro l
  induction l with
  | nil => intro init; exact Or.inl rfl
  | cons c cs ih =>
    intro init
    rw [List.foldl_cons]
    by_cases hc : mathAbs ((c : ℚ) - p) < mathAbs ((init : ℚ) - p)
    · have hstep : closerStep p init c = c := by rw [closerStep, if_pos hc]
      rw [hstep]
      exact Or.inr (lt_of_le_of_lt (foldl_closer_le p cs c).1 hc)
    · have hstep : closerStep p init c = init := by rw [closerStep, if_neg hc]
      rw [hstep]
      exact ih init

lemma foldl_closer_first (p : ℚ) :
    ∀ (l : List ℤ) (init : ℤ), (init :: l).Sorted (· ≤ ·) →
      ∀ q ∈ init :: l,
        mathAbs ((q : ℚ) - p) = mathAbs (((l.foldl (closerStep p) init : ℤ) : ℚ) - p) →
          l.foldl (closerStep p) init ≤ q := by
  intro l
  induction l with
  | nil =>
    intro init _ q hq _
    rw [List.foldl_nil]
    have hqi : q = init := by simpa using hq
    rw [hqi]
  | cons c cs ih =>
    intro init hsort q hq htie
    rw [List.foldl_cons] at htie ⊢
    rw [List.sorted_cons] at hsort
    obtain ⟨hinit_le, hsort1⟩ := hsort
    have hc_le : ∀ b ∈ cs, c ≤ b := (List.sorted_cons.mp hsort1).1
    have hsort_cs : cs.Sorted (· ≤ ·) := (List.sorted_cons.mp hsort1).2
    by_cases hc : mathAbs ((c : ℚ) - p) < mathAbs ((init : ℚ) - p)
    · have hstep : closerStep p init c = c := by rw [closerStep, if_pos hc]
      rw [hstep] at htie ⊢
      rcases List.mem_cons.mp hq with hqi | hq2
      · exfalso
        have hlt : mathAbs (((cs.foldl (closerStep p) c : ℤ) : ℚ) - p) < mathAbs ((init : ℚ) - p) :=
          lt_of_le_of_lt (foldl_closer_le p cs c).1 hc
        rw [hqi] at htie
        rw [htie] at hlt
        exact lt_irrefl _ hlt
      · exact ih c hsort1 q hq2 htie
    · have hstep : closerStep p init c = init := by rw [closerStep, if_neg hc]
      rw [hstep] at htie ⊢
      have hsort2 : (init :: cs).Sorted (· ≤ ·) :=
        List.sorted_cons.mpr
          ⟨fun b hb => hinit_le b (List.mem_cons_of_mem c hb), hsort_cs⟩
      rcases List.mem_cons.mp hq with hqi | hq2
      · rw [hqi] at htie ⊢
        exact ih init hsort2 init (List.mem_cons_self init cs) htie
      · rcases List.mem_cons.mp hq2 with hqc | hq3
        · rw [hqc] at htie ⊢
          have h1 : mathAbs (((cs.foldl (closerStep p) init : ℤ) : ℚ) - p) ≤ mathAbs ((init : ℚ) - p) :=
            (foldl_closer_le p cs init).1
          have h2 : mathAbs ((init : ℚ) - p) ≤ mathAbs ((c : ℚ) - p) := not_lt.mp hc
          have heq : mathAbs (((cs.foldl (closerStep p) init : ℤ) : ℚ) - p) = mathAbs ((init : ℚ) - p) :=
            le_antisymm h1 (htie ▸ h2)
          rcases foldl_closer_strict p cs init with hfi | hlt
          · rw [hfi]
            exact hinit_le c (List.mem_cons_self c cs)
          · exfalso
            rw [heq] at hlt
            exact lt_irrefl _ hlt
        · exact ih init hsort2 q (List.mem_cons_of_mem init hq3) htie

lemma MIDI_NUMS_sorted : MIDI_NUMS.Sorted (· ≤ ·) := by decide

lemma mathAbs_eq_abs (x : ℚ) : mathAbs x = |x| := by
  rw [mathAbs]
  split
  · exact (abs_of_neg (by assumption)).symm
  · exact (abs_of_nonneg (not_lt.mp (by assumption))).symm

lemma releaseNote_timer (s : AppState) (i : ℕ) (hp : ¬s.isAIPlaying) :
    (releaseNote s i).1.inactivityTimer =
      if notesAfterRelease s (MIDI_NUMS.getD i 0) = [] ∧ s.aiEnabled then
        some INACTIVITY_THRESHOLD
      else s.inactivityTimer := by
  simp only [releaseNote, if_neg hp]
  by_cases hcond : notesAfterRelease s (MIDI_NUMS.getD i 0) = [] ∧ s.aiEnabled
  · rw [if_pos hcond, if_pos hcond]
  · rw [if_neg hcond, if_neg hcond]

lemma foldl_maxStep_le (l : List GenNote) :
    ∀ acc : ℤ, acc ≤ l.foldl maxStep acc ∧
      ∀ n ∈ l, n.quantizedEndStep * msPerStep ≤ l.foldl maxStep acc := by
  induction l with
  | nil => intro acc; exact ⟨le_refl _, by simp⟩
  | cons m ms ih =>
    intro acc
    rw [List.foldl_cons]
    have h := ih (maxStep acc m)
    have hacc : acc ≤ maxStep acc m := by
      unfold maxStep; split <;> omega
    have hm : m.quantizedEndStep * msPerStep ≤ maxStep acc m := by
      unfold maxStep; split <;> omega
    refine ⟨hacc.trans h.1, ?_⟩
    intro n hn
    rcases List.mem_cons.mp hn with rfl | hn2
    · exact hm.trans h.1
    · exact h.2 n hn2

lemma foldl_maxStep_attained (l : List GenNote) :
    ∀ acc : ℤ, l.foldl maxStep acc = acc ∨
      ∃ n ∈ l, l.foldl maxStep acc = n.quantizedEndStep * msPerStep := by
  induction l with
  | nil => intro acc; exact Or.inl rfl
  | cons m ms ih =>
    intro acc
    rw [List.foldl_cons]
    rcases ih (maxStep acc m) with h | ⟨n, hn, he⟩
    · rw [h]
      unfold maxStep
      split
      · exact Or.inr ⟨m, List.mem_cons_self m ms, rfl⟩
      · exact Or.inl rfl
    · exact Or.inr ⟨n, List.mem_cons_of_mem m hn, he⟩

lemma modelCallsOf_map_release (l : List ℤ) :
    modelCallsOf (l.map Effect.release) = [] := by
  induction l with
  | nil => rfl
  | cons x xs ih => exact ih

/- ------------------------------------------------------------------
   Claim theorems
   ------------------------------------------------------------------ -/

/-- Claim C1: when the AI turn fires on a buffer of N recorded notes,
exactly one model submission is made; its request sequence has exactly
N entries, entry i copies the i-th recorded pitch verbatim and
occupies exactly the i-th 0.5-second slot (startTime i*0.5 and endTime
(i+1)*0.5, i.e. startStep i and endStep i+1 of the half-second
discretization) with velocity fixed at 80; the sequence spans N slots
(totalTime N*0.5, i.e. totalSteps N); the response length is fixed at
50 steps and the temperature at 1.1. -/
theorem C1_request_shape (s : AppState)
    (h1 : s.aiEnabled = true) (h2 : s.userNotes ≠ []) (h3 : s.isAIPlaying = false) :
    modelCallsOf (triggerFire s).2 = [aiModelRequest s.userNotes] ∧
    (aiModelRequest s.userNotes).steps = 50 ∧
    (aiModelRequest s.userNotes).temperature = 11 / 10 ∧
    (aiModelRequest s.userNotes).sequence.notes.length = s.userNotes.length ∧
    (aiModelRequest s.userNotes).sequence.totalTime =
      (s.userNotes.length : ℚ) * (1 / 2) ∧
    ∀ i, i < s.userNotes.length →
      (aiModelRequest s.userNotes).sequence.notes.getD i default =
        ⟨(s.userNotes.getD i default).pitch, (i : ℚ) * (1 / 2),
          ((i : ℚ) + 1) * (1 / 2), 80⟩ := by
  have hguard : ¬(¬s.aiEnabled ∨ s.userNotes = [] ∨ s.isAIPlaying) := by
    simp [h1, h2, h3]
  refine ⟨?_, rfl, rfl, discretizeFrom_length s.userNotes 0, rfl, ?_⟩
  · rw [triggerFire, if_neg hguard]
    show modelCallsOf
        (Effect.disableInput ::
          (s.activeNotes.map Effect.release ++
            [Effect.modelCall (aiModelRequest s.userNotes)])) = _
    rw [modelCallsOf, List.filterMap_cons]
    show List.filterMap toModelCall
        (s.activeNotes.map Effect.release ++
          [Effect.modelCall (aiModelRequest s.userNotes)]) = _
    rw [List.filterMap_append]
    rw [show List.filterMap toModelCall (s.activeNotes.map Effect.release) = []
        from modelCallsOf_map_release s.activeNotes]
    rfl
  · intro i hi
    have h := discretizeFrom_getD s.userNotes 0 i hi
    simpa using h

/-- Witness for C1 at the concrete one-note buffer [pitch 60]. -/
theorem C1_request_shape_witness :
    ((⟨true, false, [⟨60, 0, 1 / 2⟩], [], none, [], none⟩ : AppState).aiEnabled = true ∧
     (⟨true, false, [⟨60, 0, 1 / 2⟩], [], none, [], none⟩ : AppState).userNotes ≠ [] ∧
     (⟨true, false, [⟨60, 0, 1 / 2⟩], [], none, [], none⟩ : AppState).isAIPlaying = false) ∧
    (modelCallsOf
        (triggerFire (⟨true, false, [⟨60, 0, 1 / 2⟩], [], none, [], none⟩ : AppState)).2 =
      [aiModelRequest
        (⟨true, false, [⟨60, 0, 1 / 2⟩], [], none, [], none⟩ : AppState).userNotes] ∧
     (aiModelRequest
        (⟨true, false, [⟨60, 0, 1 / 2⟩], [], none, [], none⟩ : AppState).userNotes).steps = 50 ∧
     (aiModelRequest
        (⟨true, false, [⟨60, 0, 1 / 2⟩], [], none, [], none⟩ : AppState).userNotes).temperature =
       11 / 10 ∧
     (aiModelRequest
        (⟨true, false, [⟨60, 0, 1 / 2⟩], [], none, [], none⟩ : AppState).userNotes).sequence.notes.length =
       (⟨true, false, [⟨60, 0, 1 / 2⟩], [], none, [], none⟩ : AppState).userNotes.length ∧
     (aiModelRequest
        (⟨true, false, [⟨60, 0, 1 / 2⟩], [], none, [], none⟩ : AppState).userNotes).sequence.totalTime =
       ((⟨true, false, [⟨60, 0, 1 / 2⟩], [], none, [], none⟩ : AppState).userNotes.length : ℚ) *
         (1 / 2) ∧
     ∀ i, i < (⟨true, false, [⟨60, 0, 1 / 2⟩], [], none, [], none⟩ : AppState).userNotes.length →
       (aiModelRequest
          (⟨true, false, [⟨60, 0, 1 / 2⟩], [], none, [], none⟩ : AppState).userNotes).sequence.notes.getD
           i default =
         ⟨((⟨true, false, [⟨60, 0, 1 / 2⟩], [], none, [], none⟩ : AppState).userNotes.getD
             i default).pitch,
           (i : ℚ) * (1 / 2), ((i : ℚ) + 1) * (1 / 2), 80⟩) :=
  ⟨⟨rfl, by simp, rfl⟩,
    C1_request_shape ⟨true, false, [⟨60, 0, 1 / 2⟩], [], none, [], none⟩ rfl (by simp) rfl⟩

/-- Claim C2: the playback target for any generated pitch is the pitch
of the playable set [60..77] that minimizes absolute distance, with
ties resolved to the first (lowest) candidate of the ascending scan;
58 resolves to 60, 79 resolves to 77, and the exact midpoint 63.5
resolves to the lower candidate 63. -/
theorem C2_pitch_snapping (p : ℚ) (n : GenNote) :
    closestMidi p ∈ MIDI_NUMS ∧
    (∀ q ∈ MIDI_NUMS, mathAbs (((closestMidi p : ℤ) : ℚ) - p) ≤ mathAbs ((q : ℚ) - p)) ∧
    (∀ q ∈ MIDI_NUMS,
      mathAbs ((q : ℚ) - p) = mathAbs (((closestMidi p : ℤ) : ℚ) - p) → closestMidi p ≤ q) ∧
    (∀ x : ℚ, mathAbs x = |x|) ∧
    (scheduleNote n).pitch = closestMidi n.pitch ∧
    closestMidi 58 = 60 ∧ closestMidi 79 = 77 ∧ closestMidi (127 / 2) = 63 := by
  have hrepr : closestMidi p = List.foldl (closerStep p) 60 MIDI_NUMS.tail := rfl
  have hcons : MIDI_NUMS = 60 :: MIDI_NUMS.tail := rfl
  have h58 : closestMidi 58 = 60 := by
    norm_num [closestMidi, reduceClosest, MIDI_NUMS, List.foldl, closerStep, mathAbs]
  have h79 : closestMidi 79 = 77 := by
    norm_num [closestMidi, reduceClosest, MIDI_NUMS, List.foldl, closerStep, mathAbs]
  have hmid : closestMidi (127 / 2) = 63 := by
    norm_num [closestMidi, reduceClosest, MIDI_NUMS, List.foldl, closerStep, mathAbs]
  refine ⟨?_, ?_, ?_, mathAbs_eq_abs, rfl, h58, h79, hmid⟩
  · rw [hrepr, hcons]
    exact foldl_closer_mem p MIDI_NUMS.tail 60
  · intro q hq
    rw [hcons] at hq
    rw [hrepr]
    rcases List.mem_cons.mp hq with hq0 | hqt
    · rw [hq0]
      exact (foldl_closer_le p MIDI_NUMS.tail 60).1
    · exact (foldl_closer_le p MIDI_NUMS.tail 60).2 q hqt
  · intro q hq htie
    rw [hcons] at hq
    rw [hrepr] at htie ⊢
    exact foldl_closer_first p MIDI_NUMS.tail 60 (hcons ▸ MIDI_NUMS_sorted) q hq htie

/-- Witness for C2 at pitch 58: the snapped pitch is playable, no
playable pitch is closer, and the tie rule holds there. -/
theorem C2_pitch_snapping_witness :
    closestMidi 58 ∈ MIDI_NUMS ∧
    (∀ q ∈ MIDI_NUMS, mathAbs (((closestMidi 58 : ℤ) : ℚ) - 58) ≤ mathAbs ((q : ℚ) - 58)) ∧
    (∀ q ∈ MIDI_NUMS,
      mathAbs ((q : ℚ) - 58) = mathAbs (((closestMidi 58 : ℤ) : ℚ) - 58) → closestMidi 58 ≤ q) ∧
    (∀ x : ℚ, mathAbs x = |x|) ∧
    (scheduleNote ⟨58, 0, 4⟩).pitch = closestMidi (58 : ℚ) ∧
    closestMidi 58 = 60 ∧ closestMidi 79 = 77 ∧ closestMidi (127 / 2) = 63 :=
  C2_pitch_snapping 58 ⟨58, 0, 4⟩

/-- Claim C3 as stated is false on the empty GeneratedSequence: the
completion timeout is scheduled 500 ms after playback start (the code
computes totalDuration 0 plus the 500 ms buffer), not immediately at
zero offset. -/
theorem C3_counterexample :
    (modelReturn (⟨true, true, [], [], none, [], none⟩ : AppState) []).completionPending =
      some 500 ∧
    some (500 : ℤ) ≠ some (0 : ℤ) := by
  exact ⟨rfl, by decide⟩

/-- Claim C3 amended: after playback of a GeneratedSequence is
scheduled, the transition back to HumanTurn is the single deferred
reset scheduled exactly at maxEndOffsetMs + 500 ms, where
maxEndOffsetMs bounds every quantizedEndStep*125 from above and is
either 0 or attained by some note; a max end offset of 1000 ms yields
1500 ms; when the GeneratedSequence contains no notes the completion
is signalled at 0 + 500 = 500 ms, not immediately. -/
theorem C3_completion_timing (s : AppState) (res : List GenNote) :
    (modelReturn s res).completionPending = some (maxEndOffsetMs res + 500) ∧
    (∀ n ∈ res, n.quantizedEndStep * msPerStep ≤ maxEndOffsetMs res) ∧
    0 ≤ maxEndOffsetMs res ∧
    (maxEndOffsetMs res = 0 ∨
      ∃ n ∈ res, maxEndOffsetMs res = n.quantizedEndStep * msPerStep) ∧
    completionDelayMs [⟨62, 0, 8⟩] = 1500 ∧
    completionDelayMs [] = 500 := by
  exact ⟨rfl, (foldl_maxStep_le res 0).2, (foldl_maxStep_le res 0).1,
    foldl_maxStep_attained res 0, by decide, rfl⟩

/-- Witness for C3 at a one-note sequence ending at step 8. -/
theorem C3_completion_timing_witness :
    (modelReturn (⟨true, true, [], [], none, [], none⟩ : AppState)
        [⟨62, 0, 8⟩]).completionPending =
      some (maxEndOffsetMs [⟨62, 0, 8⟩] + 500) ∧
    (∀ n ∈ ([⟨62, 0, 8⟩] : List GenNote),
      n.quantizedEndStep * msPerStep ≤ maxEndOffsetMs [⟨62, 0, 8⟩]) ∧
    0 ≤ maxEndOffsetMs [⟨62, 0, 8⟩] ∧
    (maxEndOffsetMs [⟨62, 0, 8⟩] = 0 ∨
      ∃ n ∈ ([⟨62, 0, 8⟩] : List GenNote),
        maxEndOffsetMs [⟨62, 0, 8⟩] = n.quantizedEndStep * msPerStep) ∧
    completionDelayMs [⟨62, 0, 8⟩] = 1500 ∧
    completionDelayMs [] = 500 :=
  C3_completion_timing ⟨true, true, [], [], none, [], none⟩ [⟨62, 0, 8⟩]

/-- Claim C7: every generated note is scheduled at offset
quantizedStartStep*125 ms with synthesis duration
(quantizedEndStep - quantizedStartStep)*125/1000 seconds; the note
with steps 2 to 6 is scheduled at 250 ms with duration 0.5 s; the
success path schedules exactly one playback event per generated
note. -/
theorem C7_playback_math (s : AppState) (res : List GenNote) (n : GenNote) :
    (scheduleNote n).offsetMs = n.quantizedStartStep * 125 ∧
    (scheduleNote n).durationSec =
      ((n.quantizedEndStep : ℚ) - (n.quantizedStartStep : ℚ)) * 125 / 1000 ∧
    (modelReturn s res).playbackPending = res.map scheduleNote ∧
    scheduleNote ⟨62, 2, 6⟩ = ⟨250, 62, 1 / 2⟩ := by
  refine ⟨rfl, ?_, rfl, ?_⟩
  · show ((n.quantizedEndStep * msPerStep - n.quantizedStartStep * msPerStep : ℤ) : ℚ) / 1000 = _
    rw [msPerStep]
    push_cast
    ring
  · norm_num [scheduleNote, msPerStep, closestMidi, reduceClosest, MIDI_NUMS,
      List.foldl, closerStep, mathAbs]

/-- Witness for C7 at the note with steps 2 to 6. -/
theorem C7_playback_math_witness :
    (scheduleNote ⟨62, 2, 6⟩).offsetMs = (⟨62, 2, 6⟩ : GenNote).quantizedStartStep * 125 ∧
    (scheduleNote ⟨62, 2, 6⟩).durationSec =
      (((⟨62, 2, 6⟩ : GenNote).quantizedEndStep : ℚ) -
        ((⟨62, 2, 6⟩ : GenNote).quantizedStartStep : ℚ)) * 125 / 1000 ∧
    (modelReturn (⟨true, true, [], [], none, [], none⟩ : AppState)
        [⟨62, 2, 6⟩]).playbackPending = [⟨62, 2, 6⟩].map scheduleNote ∧
    scheduleNote ⟨62, 2, 6⟩ = ⟨250, 62, 1 / 2⟩ :=
  C7_playback_math ⟨true, true, [], [], none, [], none⟩ [⟨62, 2, 6⟩] ⟨62, 2, 6⟩

/-- Claim C4: the HumanTurn to AiTurn transition happens only when the
trigger fires with the toggle enabled, a non-empty buffer, and the
state HumanTurn; a trigger fired while already in AiTurn, or with the
toggle disabled, or with an empty buffer, is a no-op that makes no
model call, emits no effects, and returns the state unchanged - so two
concurrent AiTurn periods are impossible. -/
theorem C4_single_ai_turn (s : AppState) :
    (¬s.aiEnabled ∨ s.userNotes = [] ∨ s.isAIPlaying → triggerFire s = (s, [])) ∧
    (s.isAIPlaying → triggerFire s = (s, [])) ∧
    ((triggerFire s).1.isAIPlaying ∧ ¬s.isAIPlaying →
      s.aiEnabled ∧ s.userNotes ≠ [] ∧ ¬s.isAIPlaying) := by
  by_cases hg : ¬s.aiEnabled ∨ s.userNotes = [] ∨ s.isAIPlaying
  · have hfire : triggerFire s = (s, []) := by
      simp only [triggerFire]
      rw [if_pos hg]
    refine ⟨fun _ => hfire, fun _ => hfire, fun hc => ?_⟩
    exfalso
    rw [hfire] at hc
    exact hc.2 hc.1
  · have hng := hg
    push_neg at hng
    exact ⟨fun h => absurd h hg, fun h => absurd (Or.inr (Or.inr h)) hg,
      fun _ => ⟨hng.1, hng.2.1, hng.2.2⟩⟩

/-- Witness for C4: a trigger fired while an AI turn is already active
is a pure no-op. -/
theorem C4_single_ai_turn_witness :
    (⟨true, true, [⟨60, 0, 1 / 2⟩], [], none, [], none⟩ : AppState).isAIPlaying = true ∧
    triggerFire (⟨true, true, [⟨60, 0, 1 / 2⟩], [], none, [], none⟩ : AppState) =
      ((⟨true, true, [⟨60, 0, 1 / 2⟩], [], none, [], none⟩ : AppState), []) :=
  ⟨rfl,
    (C4_single_ai_turn ⟨true, true, [⟨60, 0, 1 / 2⟩], [], none, [], none⟩).2.1 rfl⟩

/-- Claim C5: when the model call rejects after an AI turn has
started, the catch handler returns to HumanTurn immediately and
synchronously - it schedules no playback events and no settle-buffer
timeout, clears the recorded buffer, and restores input capture; the
success-path completion handler likewise leaves the buffer empty, the
turn over and input re-enabled, so after every AI turn the buffer is
empty and the human is back in control. -/
theorem C5_failure_recovery (s : AppState) :
    (modelError s).1.isAIPlaying = false ∧
    (modelError s).1.userNotes = [] ∧
    (modelError s).1.activeNotes = s.activeNotes ∧
    (modelError s).1.playbackPending = s.playbackPending ∧
    (modelError s).1.completionPending = s.completionPending ∧
    (modelError s).2 = [Effect.enableInput] ∧
    (completionFire s).1.userNotes = [] ∧
    (completionFire s).1.isAIPlaying = false ∧
    (completionFire s).2 = [Effect.enableInput] :=
  ⟨rfl, rfl, rfl, rfl, rfl, rfl, rfl, rfl, rfl⟩

/-- Claim C6: disabling the toggle during an active AI turn does not
cancel the in-flight turn - the disable handler leaves isAIPlaying,
the scheduled playback timeouts and the pending completion timeout
untouched (it only clears the enabled flag and the inactivity timer),
and the completion handler still ends the turn normally; afterwards no
new AI turn can start while the toggle is off: the trigger is a no-op
on any disabled state and a note release on a disabled state never
arms the inactivity timer, even when the buffer is non-empty. -/
theorem C6_disable_preserves_turn (s u : AppState) (i : ℕ)
    (hu : ¬u.aiEnabled) (hup : ¬u.isAIPlaying) :
    (aiToggleChange s false).isAIPlaying = s.isAIPlaying ∧
    (aiToggleChange s false).playbackPending = s.playbackPending ∧
    (aiToggleChange s false).completionPending = s.completionPending ∧
    (aiToggleChange s false).userNotes = s.userNotes ∧
    (aiToggleChange s false).aiEnabled = false ∧
    (aiToggleChange s false).inactivityTimer = none ∧
    (completionFire (aiToggleChange s false)).1.isAIPlaying = false ∧
    (completionFire (aiToggleChange s false)).1.userNotes = [] ∧
    triggerFire u = (u, []) ∧
    (releaseNote u i).1.inactivityTimer = u.inactivityTimer := by
  have htog : aiToggleChange s false =
      { s with aiEnabled := false, inactivityTimer := none } := by
    simp [aiToggleChange]
  refine ⟨by rw [htog], by rw [htog], by rw [htog], by rw [htog], by rw [htog],
    by rw [htog], rfl, rfl, ?_, ?_⟩
  · simp only [triggerFire]
    rw [if_pos (Or.inl hu)]
  · rw [releaseNote_timer u i hup]
    rw [if_neg (fun hand => hu hand.2)]

/-- Witness for C6 at a disabled state with a non-empty buffer and an
in-flight turn. -/
theorem C6_disable_preserves_turn_witness :
    ((⟨false, false, [⟨60, 0, 1 / 2⟩], [], none, [], none⟩ : AppState).aiEnabled =
        false ∧
      (⟨false, false, [⟨60, 0, 1 / 2⟩], [], none, [], none⟩ : AppState).isAIPlaying =
        false) ∧
    ((aiToggleChange (⟨true, true, [⟨60, 0, 1 / 2⟩], [64], some 2000, [⟨0, 62, 1 / 2⟩], some 1500⟩ : AppState)
          false).isAIPlaying =
        (⟨true, true, [⟨60, 0, 1 / 2⟩], [64], some 2000, [⟨0, 62, 1 / 2⟩], some 1500⟩ : AppState).isAIPlaying ∧
      (aiToggleChange (⟨true, true, [⟨60, 0, 1 / 2⟩], [64], some 2000, [⟨0, 62, 1 / 2⟩], some 1500⟩ : AppState)
          false).playbackPending =
        (⟨true, true, [⟨60, 0, 1 / 2⟩], [64], some 2000, [⟨0, 62, 1 / 2⟩], some 1500⟩ : AppState).playbackPending ∧
      (aiToggleChange (⟨true, true, [⟨60, 0, 1 / 2⟩], [64], some 2000, [⟨0, 62, 1 / 2⟩], some 1500⟩ : AppState)
          false).completionPending =
        (⟨true, true, [⟨60, 0, 1 / 2⟩], [64], some 2000, [⟨0, 62, 1 / 2⟩], some 1500⟩ : AppState).completionPending ∧
      (aiToggleChange (⟨true, true, [⟨60, 0, 1 / 2⟩], [64], some 2000, [⟨0, 62, 1 / 2⟩], some 1500⟩ : AppState)
          false).userNotes =
        (⟨true, true, [⟨60, 0, 1 / 2⟩], [64], some 2000, [⟨0, 62, 1 / 2⟩], some 1500⟩ : AppState).userNotes ∧
      (aiToggleChange (⟨true, true, [⟨60, 0, 1 / 2⟩], [64], some 2000, [⟨0, 62, 1 / 2⟩], some 1500⟩ : AppState)
          false).aiEnabled = false ∧
      (aiToggleChange (⟨true, true, [⟨60, 0, 1 / 2⟩], [64], some 2000, [⟨0, 62, 1 / 2⟩], some 1500⟩ : AppState)
          false).inactivityTimer = none ∧
      (completionFire
          (aiToggleChange (⟨true, true, [⟨60, 0, 1 / 2⟩], [64], some 2000, [⟨0, 62, 1 / 2⟩], some 1500⟩ : AppState)
            false)).1.isAIPlaying = false ∧
      (completionFire
          (aiToggleChange (⟨true, true, [⟨60, 0, 1 / 2⟩], [64], some 2000, [⟨0, 62, 1 / 2⟩], some 1500⟩ : AppState)
            false)).1.userNotes = [] ∧
      triggerFire (⟨false, false, [⟨60, 0, 1 / 2⟩], [], none, [], none⟩ : AppState) =
        ((⟨false, false, [⟨60, 0, 1 / 2⟩], [], none, [], none⟩ : AppState), []) ∧
      (releaseNote (⟨false, false, [⟨60, 0, 1 / 2⟩], [], none, [], none⟩ : AppState)
          0).1.inactivityTimer =
        (⟨false, false, [⟨60, 0, 1 / 2⟩], [], none, [], none⟩ : AppState).inactivityTimer) :=
  ⟨⟨rfl, rfl⟩,
    C6_disable_preserves_turn
      ⟨true, true, [⟨60, 0, 1 / 2⟩], [64], some 2000, [⟨0, 62, 1 / 2⟩], some 1500⟩
      ⟨false, false, [⟨60, 0, 1 / 2⟩], [], none, [], none⟩
      0 (by decide) (by decide)⟩

/-- Claim C8: on entry to AiTurn the trigger force-releases every
pitch of the active sustained-note set (one audio-engine release per
held pitch, in set order, right after input is disabled) and clears
the set; and every operation of the system preserves the invariant
that the active set is empty while an AI turn is in flight, so the
ActiveNoteSet is empty throughout every AiTurn period. -/
theorem C8_active_set_drained (s t : AppState) (idx : ℕ) (now : ℚ)
    (isAI chk : Bool) (res : List GenNote)
    (h1 : s.aiEnabled = true) (h2 : s.userNotes ≠ []) (h3 : s.isAIPlaying = false)
    (ht : t.isAIPlaying = true → t.activeNotes = []) :
    (triggerFire s).1.isAIPlaying = true ∧
    (triggerFire s).1.activeNotes = [] ∧
    (triggerFire s).2 =
      Effect.disableInput ::
        (s.activeNotes.map Effect.release ++
          [Effect.modelCall (aiModelRequest s.userNotes)]) ∧
    ((playNote t idx isAI now).1.isAIPlaying = true →
      (playNote t idx isAI now).1.activeNotes = []) ∧
    ((releaseNote t idx).1.isAIPlaying = true →
      (releaseNote t idx).1.activeNotes = []) ∧
    ((aiToggleChange t chk).isAIPlaying = true →
      (aiToggleChange t chk).activeNotes = []) ∧
    ((modelReturn t res).isAIPlaying = true →
      (modelReturn t res).activeNotes = []) ∧
    ((modelError t).1.isAIPlaying = true → (modelError t).1.activeNotes = []) ∧
    ((completionFire t).1.isAIPlaying = true →
      (completionFire t).1.activeNotes = []) ∧
    ((triggerFire t).1.isAIPlaying = true → (triggerFire t).1.activeNotes = []) := by
  have hguard : ¬(¬s.aiEnabled ∨ s.userNotes = [] ∨ s.isAIPlaying) := by
    simp [h1, h2, h3]
  have hfire : triggerFire s =
      ({ s with isAIPlaying := true, activeNotes := [] },
        Effect.disableInput ::
          (s.activeNotes.map Effect.release ++
            [Effect.modelCall (aiModelRequest s.userNotes)])) := by
    simp only [triggerFire]
    rw [if_neg hguard]
  refine ⟨by rw [hfire], by rw [hfire], by rw [hfire], ?_, ?_, ?_, ?_, ?_, ?_, ?_⟩
  · by_cases hp : t.isAIPlaying
    · by_cases hAI : isAI = true
      · have hres : (playNote t idx isAI now).1 = t := by
          simp [playNote, hAI]
        rw [hres]
        exact fun h => ht h
      · have hres : (playNote t idx isAI now).1 = t := by
          simp [playNote, hAI, hp]
        rw [hres]
        exact fun h => ht h
    · intro hcontra
      exfalso
      have hsame : (playNote t idx isAI now).1.isAIPlaying = t.isAIPlaying := by
        by_cases hAI : isAI = true
        · simp [playNote, hAI]
        · simp [playNote, hAI, hp]
      rw [hsame] at hcontra
      exact hp hcontra
  · by_cases hp : t.isAIPlaying
    · have hres : (releaseNote t idx).1 = t := by simp [releaseNote, hp]
      rw [hres]
      exact fun h => ht h
    · intro hcontra
      exfalso
      have hsame : (releaseNote t idx).1.isAIPlaying = t.isAIPlaying := by
        simp only [releaseNote, if_neg hp]
        by_cases hcond : notesAfterRelease t (MIDI_NUMS.getD idx 0) = [] ∧ t.aiEnabled
        · rw [if_pos hcond]
        · rw [if_neg hcond]
      rw [hsame] at hcontra
      exact hp hcontra
  · intro h
    have ha : (aiToggleChange t chk).activeNotes = t.activeNotes := by
      cases chk
      · simp [aiToggleChange]
      · simp [aiToggleChange]
    have hb : (aiToggleChange t chk).isAIPlaying = t.isAIPlaying := by
      cases chk
      · simp [aiToggleChange]
      · simp [aiToggleChange]
    rw [ha]
    rw [hb] at h
    exact ht h
  · exact fun h => ht h
  · intro h
    simp [modelError] at h
  · intro h
    simp [completionFire] at h
  · by_cases hgt : ¬t.aiEnabled ∨ t.userNotes = [] ∨ t.isAIPlaying
    · have hres : triggerFire t = (t, []) := by
        simp only [triggerFire]
        rw [if_pos hgt]
      rw [hres]
      exact fun h => ht h
    · have hres : (triggerFire t).1.activeNotes = [] := by
        simp only [triggerFire]
        rw [if_neg hgt]
      exact fun _ => hres

/-- Witness for C8: entering the AI turn from a state holding pitch 64
releases it and clears the set, and the invariant clauses hold at an
in-flight state with an empty active set. -/
theorem C8_active_set_drained_witness :
    ((⟨true, false, [⟨60, 0, 1 / 2⟩], [64], none, [], none⟩ : AppState).aiEnabled = true ∧
      (⟨true, false, [⟨60, 0, 1 / 2⟩], [64], none, [], none⟩ : AppState).userNotes ≠ [] ∧
      (⟨true, false, [⟨60, 0, 1 / 2⟩], [64], none, [], none⟩ : AppState).isAIPlaying = false ∧
      ((⟨true, true, [], [], none, [], none⟩ : AppState).isAIPlaying = true →
        (⟨true, true, [], [], none, [], none⟩ : AppState).activeNotes = [])) ∧
    ((triggerFire (⟨true, false, [⟨60, 0, 1 / 2⟩], [64], none, [], none⟩ : AppState)).1.isAIPlaying =
        true ∧
      (triggerFire (⟨true, false, [⟨60, 0, 1 / 2⟩], [64], none, [], none⟩ : AppState)).1.activeNotes =
        [] ∧
      (triggerFire (⟨true, false, [⟨60, 0, 1 / 2⟩], [64], none, [], none⟩ : AppState)).2 =
        Effect.disableInput ::
          ((⟨true, false, [⟨60, 0, 1 / 2⟩], [64], none, [], none⟩ : AppState).activeNotes.map
              Effect.release ++
            [Effect.modelCall
              (aiModelRequest
                (⟨true, false, [⟨60, 0, 1 / 2⟩], [64], none, [], none⟩ : AppState).userNotes)]) ∧
      ((playNote (⟨true, true, [], [], none, [], none⟩ : AppState) 0 false 0).1.isAIPlaying = true →
        (playNote (⟨true, true, [], [], none, [], none⟩ : AppState) 0 false 0).1.activeNotes = []) ∧
      ((releaseNote (⟨true, true, [], [], none, [], none⟩ : AppState) 0).1.isAIPlaying = true →
        (releaseNote (⟨true, true, [], [], none, [], none⟩ : AppState) 0).1.activeNotes = []) ∧
      ((aiToggleChange (⟨true, true, [], [], none, [], none⟩ : AppState) false).isAIPlaying = true →
        (aiToggleChange (⟨true, true, [], [], none, [], none⟩ : AppState) false).activeNotes = []) ∧
      ((modelReturn (⟨true, true, [], [], none, [], none⟩ : AppState) []).isAIPlaying = true →
        (modelReturn (⟨true, true, [], [], none, [], none⟩ : AppState) []).activeNotes = []) ∧
      ((modelError (⟨true, true, [], [], none, [], none⟩ : AppState)).1.isAIPlaying = true →
        (modelError (⟨true, true, [], [], none, [], none⟩ : AppState)).1.activeNotes = []) ∧
      ((completionFire (⟨true, true, [], [], none, [], none⟩ : AppState)).1.isAIPlaying = true →
        (completionFire (⟨true, true, [], [], none, [], none⟩ : AppState)).1.activeNotes = []) ∧
      ((triggerFire (⟨true, true, [], [], none, [], none⟩ : AppState)).1.isAIPlaying = true →
        (triggerFire (⟨true, true, [], [], none, [], none⟩ : AppState)).1.activeNotes = [])) :=
  ⟨⟨rfl, by simp, rfl, fun _ => rfl⟩,
    C8_active_set_drained
      ⟨true, false, [⟨60, 0, 1 / 2⟩], [64], none, [], none⟩
      ⟨true, true, [], [], none, [], none⟩
      0 0 false false [] rfl (by simp) rfl (fun _ => rfl)⟩

/-- Claim C9 as stated is false on the code: releasing the last held
key with an empty recorded buffer and the feature enabled DOES arm the
2000 ms inactivity timer, because releaseNote checks only that no keys
remain held and that the feature is enabled, never that a note has
been recorded. -/
theorem C9_counterexample :
    (⟨true, false, [], [60], none, [], none⟩ : AppState).userNotes = [] ∧
    (releaseNote (⟨true, false, [], [60], none, [], none⟩ : AppState) 0).1.inactivityTimer =
      some INACTIVITY_THRESHOLD := by
  exact ⟨rfl, by decide⟩

/-- Claim C9 amended: a note-off arms the single-slot 2000 ms one-shot
inactivity timer exactly when, after the release, no keys remain held
and the feature toggle is enabled - the recorded buffer is never
consulted (the arming decision is unchanged under any replacement of
the buffer); when that guard fails the pending timer is left exactly
as it was; the protection against generating from an empty buffer
lives in the trigger itself, which is a complete no-op on an empty
buffer. -/
theorem C9_timer_arming (s : AppState) (i : ℕ) (l : List NoteEvent)
    (hp : ¬s.isAIPlaying) :
    (releaseNote s i).1.inactivityTimer =
      (if notesAfterRelease s (MIDI_NUMS.getD i 0) = [] ∧ s.aiEnabled then
        some INACTIVITY_THRESHOLD
      else s.inactivityTimer) ∧
    (releaseNote { s with userNotes := l } i).1.inactivityTimer =
      (releaseNote s i).1.inactivityTimer ∧
    (s.userNotes = [] → triggerFire s = (s, [])) := by
  have hs := releaseNote_timer s i hp
  have hl := releaseNote_timer { s with userNotes := l } i hp
  refine ⟨hs, ?_, fun he => ?_⟩
  · rw [hs, hl]
    simp only [notesAfterRelease]
  · simp only [triggerFire]
    rw [if_pos (Or.inr (Or.inl he))]

/-- Witness for C9 at the state holding only pitch 60 with an empty
buffer: the release arms the timer, replacing the buffer changes
nothing, and the trigger is a no-op on the empty buffer. -/
theorem C9_timer_arming_witness :
    (¬(⟨true, false, [], [60], none, [], none⟩ : AppState).isAIPlaying) ∧
    ((releaseNote (⟨true, false, [], [60], none, [], none⟩ : AppState) 0).1.inactivityTimer =
      (if notesAfterRelease (⟨true, false, [], [60], none, [], none⟩ : AppState)
            (MIDI_NUMS.getD 0 0) = [] ∧
          (⟨true, false, [], [60], none, [], none⟩ : AppState).aiEnabled then
        some INACTIVITY_THRESHOLD
      else (⟨true, false, [], [60], none, [], none⟩ : AppState).inactivityTimer) ∧
    (releaseNote { (⟨true, false, [], [60], none, [], none⟩ : AppState) with
        userNotes := [⟨62, 0, 1 / 2⟩] } 0).1.inactivityTimer =
      (releaseNote (⟨true, false, [], [60], none, [], none⟩ : AppState) 0).1.inactivityTimer ∧
    ((⟨true, false, [], [60], none, [], none⟩ : AppState).userNotes = [] →
      triggerFire (⟨true, false, [], [60], none, [], none⟩ : AppState) =
        ((⟨true, false, [], [60], none, [], none⟩ : AppState), []))) :=
  ⟨by decide,
    C9_timer_arming ⟨true, false, [], [60], none, [], none⟩ 0 [⟨62, 0, 1 / 2⟩] (by decide)⟩

/-- Claim C10: the enable branch of the toggle handler unconditionally
clears the recorded buffer before testing it, so after every enable
event the buffer is empty, the timer-arming branch is unreachable (the
inactivity timer is left exactly as it was), and enabling the AI never
schedules a generation from notes played while it was off. -/
theorem C10_enable_clears_buffer (s : AppState) :
    (aiToggleChange s true).userNotes = [] ∧
    (aiToggleChange s true).inactivityTimer = s.inactivityTimer ∧
    (aiToggleChange s true).aiEnabled = true := by
  refine ⟨?_, ?_, ?_⟩ <;> simp [aiToggleChange]

end JamBuddy
